import Mathlib

/-!
# The logging facade of `94youshin/log`

A shallow embedding of `options.go` and `log.go`.

* Go strings are `String`; a nil-able pointer is an `Option`; a Go
  `(value, error)` pair is kept as a pair of options so that "nil logger,
  non-nil error" is a property to prove and not a fact of the type.
* The package-level variable `logger` is threaded explicitly: `New` takes the
  singleton before the call and returns the singleton after it.
* `strings.ToLower` / `bytes.ToLower` of the Go standard library is a
  parameter `toLower`; closed statements instantiate it with `asciiToLower`,
  with which it agrees on ASCII input.
* The functions of `go.uber.org/zap` that the package calls are embedded in
  the namespaces `zapcore` and `zap`, after the library (`zapcore/level.go`,
  `zapcore/encoder.go`, `config.go`). Opening the sinks and assembling the
  core is a parameter of `zap.Config.Build`.
* The package pins no release of zap, so which level texts are rejected is
  stated for an arbitrary level parser (`Options.ValidateWith`).
-/

/-! ## Go standard library -/

/-- ASCII case folding: the fast path of Go's `strings.ToLower`. -/
def asciiToLower (s : String) : String :=
  ⟨s.data.map Char.toLower⟩

/-! ## `go.uber.org/zap/zapcore` -/

namespace zapcore

/-- The severities of `zapcore.Level`, in increasing order
(`DebugLevel = -1`, `InfoLevel = 0`, ..., `FatalLevel = 5`). -/
inductive Level where
  | DebugLevel
  | InfoLevel
  | WarnLevel
  | ErrorLevel
  | DPanicLevel
  | PanicLevel
  | FatalLevel
  deriving DecidableEq, Repr

open Level

/-- Numeric value of a level. -/
def Level.toInt : Level → Int
  | DebugLevel => -1
  | InfoLevel => 0
  | WarnLevel => 1
  | ErrorLevel => 2
  | DPanicLevel => 3
  | PanicLevel => 4
  | FatalLevel => 5

/-- The method `Level.String`: the lower-case ASCII name of the level. -/
def Level.string : Level → String
  | DebugLevel => "debug"
  | InfoLevel => "info"
  | WarnLevel => "warn"
  | ErrorLevel => "error"
  | DPanicLevel => "dpanic"
  | PanicLevel => "panic"
  | FatalLevel => "fatal"

/-- `Level.CapitalString`: the all-caps ASCII name of the level. -/
def Level.CapitalString : Level → String
  | DebugLevel => "DEBUG"
  | InfoLevel => "INFO"
  | WarnLevel => "WARN"
  | ErrorLevel => "ERROR"
  | DPanicLevel => "DPANIC"
  | PanicLevel => "PANIC"
  | FatalLevel => "FATAL"

/-- The unexported `Level.unmarshalText`: the `switch` over the exact text, with
the cases of zap up to v1.27.0. `none` is its `return false`. The empty string
is InfoLevel ("make the zero value useful"). This package pins no release of
zap and a later release may add cases; what `Validate` rejects is therefore
stated for an arbitrary parser (`Options.ValidateWith`), and this definition is
relied on only for texts it accepts and at the concrete inputs shown. -/
def Level.unmarshalText (text : String) : Option Level :=
  if text = "debug" ∨ text = "DEBUG" then some DebugLevel
  else if text = "info" ∨ text = "INFO" ∨ text = "" then some InfoLevel
  else if text = "warn" ∨ text = "WARN" then some WarnLevel
  else if text = "error" ∨ text = "ERROR" then some ErrorLevel
  else if text = "dpanic" ∨ text = "DPANIC" then some DPanicLevel
  else if text = "panic" ∨ text = "PANIC" then some PanicLevel
  else if text = "fatal" ∨ text = "FATAL" then some FatalLevel
  else none

end zapcore

/-- The errors that reach the callers of this package. -/
inductive GoError where
  /-- `fmt.Errorf("unrecognized level: %q", text)` of zapcore -/
  | unrecognizedLevel (text : String)
  /-- `fmt.Errorf("not a valid log format: %q", o.Format)` of `Validate` -/
  | notAValidLogFormat (format : String)
  /-- `errors.New("no encoder name specified")` of zapcore -/
  | noEncoderNameSpecified
  /-- `fmt.Errorf("no encoder registered for name %q", name)` of zapcore -/
  | noEncoderRegistered (name : String)
  /-- Any error of opening the sinks or assembling the core -/
  | engine (msg : String)
  deriving DecidableEq, Repr

namespace zapcore

open Level

/-- `(*Level).UnmarshalText` on a non-nil receiver: the text as it is, then
the text lower-cased; `unrecognized level` when both fail. -/
def Level.UnmarshalText (toLower : String → String) (text : String) :
    Except GoError Level :=
  match Level.unmarshalText text with
  | some l => .ok l
  | none =>
    match Level.unmarshalText (toLower text) with
    | some l => .ok l
    | none => .error (GoError.unrecognizedLevel text)

/-- The level encoders of zapcore that `New` chooses between. -/
inductive LevelEncoder where
  | LowercaseLevelEncoder
  | CapitalColorLevelEncoder
  deriving DecidableEq, Repr

/-- ANSI colour code of a level (`_levelToColor` of zapcore: magenta 35,
blue 34, yellow 33, red 31). -/
def levelToColor : Level → Nat
  | DebugLevel => 35
  | InfoLevel => 34
  | WarnLevel => 33
  | _ => 31

/-- `Color.Add`: `fmt.Sprintf("\x1b[%dm%s\x1b[0m", uint8(c), s)`. -/
def colorAdd (c : Nat) (s : String) : String :=
  "\x1b[" ++ toString c ++ "m" ++ s ++ "\x1b[0m"

/-- The text a level encoder appends for the level key of a record. -/
def LevelEncoder.encode : LevelEncoder → Level → String
  | .LowercaseLevelEncoder, l => l.string
  | .CapitalColorLevelEncoder, l => colorAdd (levelToColor l) l.CapitalString

/-- The time encoder `New` installs (`t.Format(time.RFC3339)`). -/
inductive TimeEncoder where
  | RFC3339
  deriving DecidableEq, Repr

/-- The duration encoder `New` installs (float milliseconds). -/
inductive DurationEncoder where
  | Milliseconds
  deriving DecidableEq, Repr

/-- The caller encoder `New` installs. -/
inductive CallerEncoder where
  | ShortCallerEncoder
  deriving DecidableEq, Repr

/-- The fields of `zapcore.EncoderConfig` that `New` sets. -/
structure EncoderConfig where
  TimeKey : String
  LevelKey : String
  NameKey : String
  CallerKey : String
  MessageKey : String
  StacktraceKey : String
  LineEnding : String
  EncodeLevel : LevelEncoder
  EncodeTime : TimeEncoder
  EncodeDuration : DurationEncoder
  EncodeCaller : CallerEncoder
  deriving DecidableEq, Repr

/-- `zapcore.DefaultLineEnding`. -/
def DefaultLineEnding : String := "\n"

end zapcore

/-! ## `go.uber.org/zap` -/

namespace zap

/-- A Go value of type `interface{}`, by dynamic type. A `zap.Field` passed as
an `interface{}` is `field key payload`; `other` stands for every dynamic type
that is neither `string` nor `zap.Field` nor one of those listed. -/
inductive Value where
  | string (s : String)
  | int (n : Int)
  | bool (b : Bool)
  | nil
  | field (key : String) (payload : Value)
  | other (typeName : String) (repr : String)
  deriving DecidableEq, Repr

/-- A structured field `zap.Field`: a key and its typed value. -/
structure Field where
  Key : String
  Val : Value
  deriving DecidableEq, Repr

/-- `zap.Any(key, value)`: the field for `key` holding `value`. -/
def Any (key : String) (value : Value) : Field :=
  ⟨key, value⟩

/-- The type assertion `v.(zap.Field)`. -/
def Value.asField : Value → Option Field
  | .field k p => some ⟨k, p⟩
  | _ => none

/-- The type assertion `v.(string)`. -/
def Value.asString : Value → Option String
  | .string s => some s
  | _ => none

/-- One call of a logging method: severity, message and fields. -/
structure Entry where
  Level : zapcore.Level
  Message : String
  Fields : List Field
  deriving DecidableEq, Repr

/-- A `*zap.Logger`, observed through the calls made on it, oldest first
(before the engine's level check and sampling). -/
structure Logger where
  entries : List Entry
  deriving DecidableEq, Repr

/-- `(*Logger).DPanic(msg, fields...)` of a logger that is not in development
mode, the only kind `New` builds (`Development: false`): the call logs at
DPanicLevel and returns. -/
def Logger.DPanic (l : Logger) (msg : String) (fields : List Field) : Logger :=
  ⟨l.entries ++ [⟨zapcore.Level.DPanicLevel, msg, fields⟩]⟩

/-- `zap.SamplingConfig`. -/
structure SamplingConfig where
  Initial : Int
  Thereafter : Int
  deriving DecidableEq, Repr

/-- The fields of `zap.Config` that `New` sets; `Level` is the level the
`AtomicLevel` was created at. -/
structure Config where
  Level : zapcore.Level
  Development : Bool
  DisableCaller : Bool
  DisableStacktrace : Bool
  Sampling : Option SamplingConfig
  Encoding : String
  EncoderConfig : zapcore.EncoderConfig
  OutputPaths : List String
  ErrorOutputPaths : List String
  deriving DecidableEq, Repr

/-- The build options `New` passes. -/
inductive BuildOption where
  | AddStacktrace (lvl : zapcore.Level)
  | AddCallerSkip (skip : Int)
  deriving DecidableEq, Repr

/-- The encoder names in zap's registry: the two zap registers itself; this
package registers none. -/
def registeredEncoders : List String := ["console", "json"]

/-- The name lookup of `Config.buildEncoder` (`newEncoder`): the encoding must
be non-empty and registered. -/
def Config.buildEncoder (cfg : Config) : Except GoError Unit :=
  if cfg.Encoding = "" then .error GoError.noEncoderNameSpecified
  else if cfg.Encoding ∈ registeredEncoders then .ok ()
  else .error (GoError.noEncoderRegistered cfg.Encoding)

/-- `Config.Build`: the encoder is built first and its error returned; what
follows (opening the sinks, assembling the core) is `openSinks`. -/
def Config.Build (openSinks : Config → List BuildOption → Except GoError Logger)
    (cfg : Config) (opts : List BuildOption) : Except GoError Logger :=
  match cfg.buildEncoder with
  | .error err => .error err
  | .ok _ => openSinks cfg opts

end zap

/-! ## Package `log`: `options.go` -/

namespace log

/-- The constant `consoleFormat`. -/
def consoleFormat : String := "console"

/-- The constant `jsonFormat`. -/
def jsonFormat : String := "json"

/-- Options contains configuration items related to log. -/
structure Options where
  Level : String
  Format : String
  EnableColor : Bool
  EnableCaller : Bool
  OutputPaths : List String
  ErrorOutputPaths : List String
  deriving DecidableEq, Repr

/-- NewOptions creates an Options object with default parameters. -/
def NewOptions : Options :=
  { Level := zapcore.Level.InfoLevel.string
    Format := consoleFormat
    EnableColor := false
    EnableCaller := false
    OutputPaths := ["stdout"]
    ErrorOutputPaths := ["stderr"] }

/-- Validate the options fields: the error of parsing the level, if any, then
the error of the format, if any. -/
def Options.Validate (toLower : String → String) (o : Options) : List GoError :=
  let errs : List GoError := []
  let errs :=
    match zapcore.Level.UnmarshalText toLower o.Level with
    | .error err => errs ++ [err]
    | .ok _ => errs
  let format := toLower o.Format
  let errs :=
    if format ≠ consoleFormat ∧ format ≠ jsonFormat then
      errs ++ [GoError.notAValidLogFormat o.Format]
    else errs
  errs

/-- The body of `Validate` with the engine's level parser left open: `parse` is
`zapLevel.UnmarshalText`, whichever release of zap the package is built
against. -/
def Options.ValidateWith (parse : String → Except GoError zapcore.Level)
    (toLower : String → String) (o : Options) : List GoError :=
  let errs : List GoError := []
  let errs :=
    match parse o.Level with
    | .error err => errs ++ [err]
    | .ok _ => errs
  let format := toLower o.Format
  let errs :=
    if format ≠ consoleFormat ∧ format ≠ jsonFormat then
      errs ++ [GoError.notAValidLogFormat o.Format]
    else errs
  errs

/-! ## Package `log`: `log.go` -/

/-- The struct `zapLogger`: the parsed level and the engine's logger. -/
structure zapLogger where
  level : zapcore.Level
  log : zap.Logger
  deriving DecidableEq, Repr

/-- The local `encoderConfig` of `New`, after the `EnableColor` branch. -/
def New.encoderConfig (opts : Options) : zapcore.EncoderConfig :=
  let encoderConfig : zapcore.EncoderConfig :=
    { TimeKey := "time"
      LevelKey := "level"
      NameKey := "logger"
      CallerKey := "caller"
      MessageKey := "msg"
      StacktraceKey := "stack"
      LineEnding := zapcore.DefaultLineEnding
      EncodeLevel := zapcore.LevelEncoder.LowercaseLevelEncoder
      EncodeTime := zapcore.TimeEncoder.RFC3339
      EncodeDuration := zapcore.DurationEncoder.Milliseconds
      EncodeCaller := zapcore.CallerEncoder.ShortCallerEncoder }
  if opts.EnableColor then
    { encoderConfig with EncodeLevel := zapcore.LevelEncoder.CapitalColorLevelEncoder }
  else encoderConfig

/-- The local `loggerConfig` of `New`. -/
def New.loggerConfig (opts : Options) (zapLevel : zapcore.Level) : zap.Config :=
  { Level := zapLevel
    Development := false
    DisableCaller := !opts.EnableCaller
    DisableStacktrace := false
    Sampling := some ⟨100, 100⟩
    Encoding := opts.Format
    EncoderConfig := New.encoderConfig opts
    OutputPaths := opts.OutputPaths
    ErrorOutputPaths := opts.ErrorOutputPaths }

/-- The options `New` passes to `Build`. -/
def New.buildOptions : List zap.BuildOption :=
  [zap.BuildOption.AddStacktrace zapcore.Level.PanicLevel, zap.BuildOption.AddCallerSkip 1]

/-- What a call of `New` leaves behind: the two return values and the
package-level `logger` after the call. -/
structure NewResult where
  ret : Option zapLogger
  err : Option GoError
  logger : Option zapLogger
  deriving DecidableEq, Repr

/-- `New(opts)`, with `build` for `loggerConfig.Build` and `logger` for the
package-level singleton before the call. -/
def New (build : zap.Config → List zap.BuildOption → Except GoError zap.Logger)
    (toLower : String → String) (logger : Option zapLogger) (opts : Option Options) :
    NewResult :=
  let opts := match opts with
    | none => NewOptions
    | some o => o
  match zapcore.Level.UnmarshalText toLower opts.Level with
  | .error err => ⟨none, some err, logger⟩
  | .ok zapLevel =>
    match build (New.loggerConfig opts zapLevel) New.buildOptions with
    | .error err => ⟨none, some err, logger⟩
    | .ok l =>
      let logger : zapLogger := ⟨zapLevel, l⟩
      ⟨some logger, none, some logger⟩

/-- The `for` loop of `handleFields` over the arguments from index `i` on
(the list is `args[i:]`), with the fields collected so far. -/
def handleFields.loop (l : zap.Logger) : List zap.Value → List zap.Field →
    List zap.Field × zap.Logger
  | [], fields => (fields, l)
  | key :: rest, fields =>
    match key.asField with
    | some _ =>
      (fields, l.DPanic "strongly-typed Zap Field passed to logr" [zap.Any "zap field" key])
    | none =>
      match rest with
      | [] =>
        (fields, l.DPanic "odd number of arguments passed as key-value pairs for logging"
          [zap.Any "ignored key" key])
      | val :: rest2 =>
        match key.asString with
        | none =>
          (fields, l.DPanic
            "non-string key argument passed to logging, ignoring all later arguments"
            [zap.Any "invalid key" key])
        | some keyStr => handleFields.loop l rest2 (fields ++ [zap.Any keyStr val])

/-- `handleFields(l, args, additional...)`: the fields returned and the logger
after the diagnostics. -/
def handleFields (l : zap.Logger) (args : List zap.Value) (additional : List zap.Field) :
    List zap.Field × zap.Logger :=
  if args.length = 0 then (additional, l)
  else
    let r := handleFields.loop l args []
    (r.1 ++ additional, r.2)

end log

/-! ## What the specification names -/

namespace log

/-- The valid severity names as the specification lists them
(debug < info < warn < error < panic < fatal). -/
def specSeverityNames : List String :=
  ["debug", "info", "warn", "error", "panic", "fatal"]

end log

/-! ## Lemmas -/

namespace zapcore

theorem UnmarshalText_error (toLower : String → String) (text : String) (e : GoError)
    (h : Level.UnmarshalText toLower text = .error e) : e = GoError.unrecognizedLevel text := by
  unfold Level.UnmarshalText at h
  cases h1 : Level.unmarshalText text with
  | some l => rw [h1] at h; cases h
  | none =>
    rw [h1] at h
    cases h2 : Level.unmarshalText (toLower text) with
    | some l => rw [h2] at h; cases h
    | none => rw [h2] at h; cases h; rfl

end zapcore

namespace log

open zapcore

theorem ValidateWith_eq (parse : String → Except GoError Level)
    (toLower : String → String) (o : Options) :
    o.ValidateWith parse toLower =
      (match parse o.Level with
        | .error err => [err]
        | .ok _ => []) ++
      (if toLower o.Format ≠ consoleFormat ∧ toLower o.Format ≠ jsonFormat then
        [GoError.notAValidLogFormat o.Format] else []) := by
  unfold Options.ValidateWith
  cases parse o.Level <;> by_cases h : toLower o.Format ≠ consoleFormat ∧ toLower o.Format ≠ jsonFormat <;> simp [h]

theorem Validate_eq (toLower : String → String) (o : Options) :
    o.Validate toLower =
      (match Level.UnmarshalText toLower o.Level with
        | .error err => [err]
        | .ok _ => []) ++
      (if toLower o.Format ≠ consoleFormat ∧ toLower o.Format ≠ jsonFormat then
        [GoError.notAValidLogFormat o.Format] else []) := by
  unfold Options.Validate
  cases Level.UnmarshalText toLower o.Level <;> by_cases h : toLower o.Format ≠ consoleFormat ∧ toLower o.Format ≠ jsonFormat <;> simp [h]

end log

/-! ## Options -/

namespace log

open zapcore

/-- C8: `NewOptions` returns level "info", format "console", colour off,
caller off, output paths exactly ["stdout"] and error output paths exactly
["stderr"]. -/
theorem NewOptions_defaults :
    NewOptions.Level = "info" ∧ NewOptions.Format = "console" ∧
      NewOptions.EnableColor = false ∧ NewOptions.EnableCaller = false ∧
      NewOptions.OutputPaths = ["stdout"] ∧ NewOptions.ErrorOutputPaths = ["stderr"] := by
  refine ⟨rfl, rfl, rfl, rfl, rfl, rfl⟩

/-- C1: `Validate` reports no format error if and only if the lower-cased
format equals "console" or "json"; for every other format the returned error
list is non-empty. This holds whatever the level is. -/
theorem Validate_format_iff (toLower : String → String) (o : Options) :
    ((∀ f, GoError.notAValidLogFormat f ∉ o.Validate toLower) ↔
        (toLower o.Format = "console" ∨ toLower o.Format = "json")) ∧
      (¬ (toLower o.Format = "console" ∨ toLower o.Format = "json") →
        o.Validate toLower ≠ []) := by
  rw [Validate_eq]
  have hlevel : ∀ f, GoError.notAValidLogFormat f ∉
      (match Level.UnmarshalText toLower o.Level with
        | .error err => [err]
        | .ok _ => ([] : List GoError)) := by
    intro f
    cases h : Level.UnmarshalText toLower o.Level with
    | ok l => simp
    | error e =>
      have he := UnmarshalText_error toLower o.Level e h
      simp [he]
  by_cases hf : toLower o.Format = "console" ∨ toLower o.Format = "json"
  · have hc : ¬ (toLower o.Format ≠ consoleFormat ∧ toLower o.Format ≠ jsonFormat) := by
      unfold consoleFormat jsonFormat
      tauto
    refine ⟨⟨fun _ => hf, fun _ f => ?_⟩, fun h => absurd hf h⟩
    rw [if_neg hc, List.append_nil]
    exact hlevel f
  · have hc : toLower o.Format ≠ consoleFormat ∧ toLower o.Format ≠ jsonFormat := by
      unfold consoleFormat jsonFormat
      tauto
    rw [if_pos hc]
    refine ⟨⟨fun h => ?_, fun h => absurd h hf⟩, fun _ => ?_⟩
    · exact absurd (List.mem_append_right _ (List.mem_singleton.mpr rfl)) (h o.Format)
    · simp

/-- C1, at concrete inputs: "JSON" gives no format error, "yaml" gives a
non-empty error list. -/
theorem Validate_format_iff_witness :
    (∀ f, GoError.notAValidLogFormat f ∉
        Options.Validate asciiToLower ⟨"info", "JSON", false, false, [], []⟩) ∧
      Options.Validate asciiToLower ⟨"info", "yaml", false, false, [], []⟩ ≠ [] :=
  ⟨(Validate_format_iff asciiToLower ⟨"info", "JSON", false, false, [], []⟩).1.mpr
      (by decide),
   (Validate_format_iff asciiToLower ⟨"info", "yaml", false, false, [], []⟩).2
      (by decide)⟩

/-- C2 as stated fails: with the supported format "console", the level
"dpanic" is not one of the six severity names, yet `Validate` returns an empty
error list; so do the empty string and "INFO". -/
theorem Validate_level_counterexample :
    "dpanic" ∉ specSeverityNames ∧
      asciiToLower "console" = consoleFormat ∧
      Options.Validate asciiToLower ⟨"dpanic", "console", false, false, [], []⟩ = [] ∧
      "" ∉ specSeverityNames ∧
      Options.Validate asciiToLower ⟨"", "console", false, false, [], []⟩ = [] ∧
      "INFO" ∉ specSeverityNames ∧
      Options.Validate asciiToLower ⟨"INFO", "console", false, false, [], []⟩ = [] := by
  decide

/-- C2, amended: for every Options with a supported format, `Validate` returns
an empty error list exactly when the engine's level parser recognizes the
level, and the one-element list of the parser's error when it does not; this
holds for every parser. With zap's parser each of the six severity names
(debug, info, warn, error, panic, fatal) is recognized, so `Validate` returns
an empty list for them. -/
theorem Validate_level_iff_parsed (parse : String → Except GoError Level)
    (toLower : String → String) (o : Options)
    (hfmt : toLower o.Format = consoleFormat ∨ toLower o.Format = jsonFormat) :
    (o.ValidateWith parse toLower = [] ↔ ∃ l, parse o.Level = .ok l) ∧
      (∀ e, parse o.Level = .error e → o.ValidateWith parse toLower = [e]) ∧
      o.Validate toLower = o.ValidateWith (Level.UnmarshalText toLower) toLower ∧
      (o.Level ∈ specSeverityNames → o.Validate toLower = []) := by
  have hc : ¬ (toLower o.Format ≠ consoleFormat ∧ toLower o.Format ≠ jsonFormat) := by
    rintro ⟨h1, h2⟩
    rcases hfmt with h | h
    · exact h1 h
    · exact h2 h
  refine ⟨?_, fun e he => ?_, rfl, fun hs => ?_⟩
  · rw [ValidateWith_eq, if_neg hc, List.append_nil]
    cases h : parse o.Level with
    | ok l => simp
    | error e => simp
  · rw [ValidateWith_eq, if_neg hc, List.append_nil, he]
  · rw [Validate_eq, if_neg hc, List.append_nil]
    unfold specSeverityNames at hs
    simp only [List.mem_cons, List.mem_singleton, List.not_mem_nil, or_false] at hs
    rcases hs with h | h | h | h | h | h <;> rw [h] <;> rfl

/-- C2, amended, at concrete inputs with zap's parser: "warn" passes, "loud"
gives the parser's error. -/
theorem Validate_level_iff_parsed_witness :
    Options.Validate asciiToLower ⟨"warn", "json", false, false, [], []⟩ = [] ∧
      Options.ValidateWith (Level.UnmarshalText asciiToLower) asciiToLower
        ⟨"warn", "json", false, false, [], []⟩ = [] ∧
      Options.ValidateWith (Level.UnmarshalText asciiToLower) asciiToLower
        ⟨"loud", "json", false, false, [], []⟩ = [GoError.unrecognizedLevel "loud"] :=
  ⟨(Validate_level_iff_parsed (Level.UnmarshalText asciiToLower) asciiToLower
      ⟨"warn", "json", false, false, [], []⟩ (by decide)).2.2.2 (by decide),
   (Validate_level_iff_parsed (Level.UnmarshalText asciiToLower) asciiToLower
      ⟨"warn", "json", false, false, [], []⟩ (by decide)).1.mpr ⟨Level.WarnLevel, rfl⟩,
   (Validate_level_iff_parsed (Level.UnmarshalText asciiToLower) asciiToLower
      ⟨"loud", "json", false, false, [], []⟩ (by decide)).2.1 _ rfl⟩

end log

/-! ## New and the singleton -/

namespace log

open zapcore

theorem New_eq (build : zap.Config → List zap.BuildOption → Except GoError zap.Logger)
    (toLower : String → String) (logger : Option zapLogger) (opts : Option Options) :
    New build toLower logger opts =
      (match Level.UnmarshalText toLower (opts.getD NewOptions).Level with
        | .error err => ⟨none, some err, logger⟩
        | .ok zapLevel =>
          match build (New.loggerConfig (opts.getD NewOptions) zapLevel) New.buildOptions with
          | .error err => ⟨none, some err, logger⟩
          | .ok l => ⟨some ⟨zapLevel, l⟩, none, some ⟨zapLevel, l⟩⟩) := by
  cases opts <;> rfl

/-- C6: whenever `New` fails, it returns a nil Logger with the non-nil error
and the singleton is what it was before the call. `New` fails with the
parser's error for every level the parser does not recognize, and with the
engine's error when `Build` fails (bad sink target or any other build
failure). -/
theorem New_failure_keeps_singleton
    (build : zap.Config → List zap.BuildOption → Except GoError zap.Logger)
    (toLower : String → String) (logger : Option zapLogger) (opts : Option Options) :
    (∀ e, Level.UnmarshalText toLower (opts.getD NewOptions).Level = .error e →
        New build toLower logger opts = ⟨none, some e, logger⟩) ∧
      (∀ zapLevel e,
        Level.UnmarshalText toLower (opts.getD NewOptions).Level = .ok zapLevel →
        build (New.loggerConfig (opts.getD NewOptions) zapLevel) New.buildOptions = .error e →
        New build toLower logger opts = ⟨none, some e, logger⟩) ∧
      ((New build toLower logger opts).err ≠ none →
        (New build toLower logger opts).ret = none ∧
          (New build toLower logger opts).logger = logger) := by
  rw [New_eq]
  refine ⟨fun e h => ?_, fun zapLevel e h hb => ?_, fun h => ?_⟩
  · rw [h]
  · rw [h]
    simp only [hb]
  · cases hp : Level.UnmarshalText toLower (opts.getD NewOptions).Level with
    | error e => exact ⟨rfl, rfl⟩
    | ok zapLevel =>
      rw [hp] at h
      simp only at h ⊢
      cases hb : build (New.loggerConfig (opts.getD NewOptions) zapLevel) New.buildOptions with
      | error e => exact ⟨rfl, rfl⟩
      | ok l =>
        simp only [hb] at h
        exact absurd rfl h

/-- C6, at concrete inputs: the unknown level "loud", a sink that cannot be
opened, and the general statement on the first of the two. -/
theorem New_failure_keeps_singleton_witness :
    New (fun _ _ => .ok ⟨[]⟩) asciiToLower (some ⟨Level.DebugLevel, ⟨[]⟩⟩)
        (some ⟨"loud", "json", false, false, ["stdout"], ["stderr"]⟩) =
      ⟨none, some (GoError.unrecognizedLevel "loud"), some ⟨Level.DebugLevel, ⟨[]⟩⟩⟩ ∧
    New (fun _ _ => .error (GoError.engine "open /nowhere/x.log")) asciiToLower
        (some ⟨Level.DebugLevel, ⟨[]⟩⟩)
        (some ⟨"info", "json", false, false, ["/nowhere/x.log"], ["stderr"]⟩) =
      ⟨none, some (GoError.engine "open /nowhere/x.log"), some ⟨Level.DebugLevel, ⟨[]⟩⟩⟩ ∧
    ((New (fun _ _ => .ok ⟨[]⟩) asciiToLower (some ⟨Level.DebugLevel, ⟨[]⟩⟩)
        (some ⟨"loud", "json", false, false, ["stdout"], ["stderr"]⟩)).ret = none ∧
      (New (fun _ _ => .ok ⟨[]⟩) asciiToLower (some ⟨Level.DebugLevel, ⟨[]⟩⟩)
        (some ⟨"loud", "json", false, false, ["stdout"], ["stderr"]⟩)).logger =
        some ⟨Level.DebugLevel, ⟨[]⟩⟩) :=
  ⟨(New_failure_keeps_singleton (fun _ _ => .ok ⟨[]⟩) asciiToLower
      (some ⟨Level.DebugLevel, ⟨[]⟩⟩)
      (some ⟨"loud", "json", false, false, ["stdout"], ["stderr"]⟩)).1 _ rfl,
   (New_failure_keeps_singleton (fun _ _ => .error (GoError.engine "open /nowhere/x.log"))
      asciiToLower (some ⟨Level.DebugLevel, ⟨[]⟩⟩)
      (some ⟨"info", "json", false, false, ["/nowhere/x.log"], ["stderr"]⟩)).2.1
      Level.InfoLevel _ rfl rfl,
   (New_failure_keeps_singleton (fun _ _ => .ok ⟨[]⟩) asciiToLower
      (some ⟨Level.DebugLevel, ⟨[]⟩⟩)
      (some ⟨"loud", "json", false, false, ["stdout"], ["stderr"]⟩)).2.2 (by decide)⟩

/-- C7: whenever `New` succeeds (returns a nil error), the level was parsed
from the options, the engine built a logger from this call's configuration,
and both the value returned and the singleton after the call are the new
`zapLogger` made of exactly these two; the singleton after the call is the
same whatever the singleton before it was. -/
theorem New_success_replaces_singleton
    (build : zap.Config → List zap.BuildOption → Except GoError zap.Logger)
    (toLower : String → String) (logger : Option zapLogger) (opts : Option Options)
    (h : (New build toLower logger opts).err = none) :
    ∃ zapLevel l,
      Level.UnmarshalText toLower (opts.getD NewOptions).Level = .ok zapLevel ∧
      build (New.loggerConfig (opts.getD NewOptions) zapLevel) New.buildOptions = .ok l ∧
      (New build toLower logger opts).ret = some ⟨zapLevel, l⟩ ∧
      (New build toLower logger opts).logger = some ⟨zapLevel, l⟩ ∧
      (New build toLower logger opts).logger = (New build toLower logger opts).ret ∧
      ∀ previous, (New build toLower previous opts).logger = some ⟨zapLevel, l⟩ := by
  simp only [New_eq] at h ⊢
  cases hp : Level.UnmarshalText toLower (opts.getD NewOptions).Level with
  | error e =>
    rw [hp] at h
    cases h
  | ok zapLevel =>
    rw [hp] at h
    cases hb : build (New.loggerConfig (opts.getD NewOptions) zapLevel) New.buildOptions with
    | error e =>
      simp only [hb] at h
      cases h
    | ok l =>
      refine ⟨zapLevel, l, rfl, hb, ?_⟩
      simp only [hb]
      exact ⟨trivial, trivial, trivial, fun _ => trivial⟩

/-- C7, at a concrete input: level "warn" over a singleton that held a debug
logger with one entry. -/
theorem New_success_replaces_singleton_witness :
    (New (fun _ _ => .ok ⟨[]⟩) asciiToLower
        (some ⟨Level.DebugLevel, ⟨[⟨Level.InfoLevel, "old", []⟩]⟩⟩)
        (some ⟨"warn", "json", false, false, ["stdout"], ["stderr"]⟩)).err = none ∧
    ∃ zapLevel l,
      Level.UnmarshalText asciiToLower
        ((some (⟨"warn", "json", false, false, ["stdout"], ["stderr"]⟩ : Options)).getD
          NewOptions).Level = .ok zapLevel ∧
      (fun (_ : zap.Config) (_ : List zap.BuildOption) =>
          (.ok ⟨[]⟩ : Except GoError zap.Logger))
        (New.loggerConfig
          ((some (⟨"warn", "json", false, false, ["stdout"], ["stderr"]⟩ : Options)).getD
            NewOptions) zapLevel) New.buildOptions = .ok l ∧
      (New (fun _ _ => .ok ⟨[]⟩) asciiToLower
        (some ⟨Level.DebugLevel, ⟨[⟨Level.InfoLevel, "old", []⟩]⟩⟩)
        (some ⟨"warn", "json", false, false, ["stdout"], ["stderr"]⟩)).ret =
          some ⟨zapLevel, l⟩ ∧
      (New (fun _ _ => .ok ⟨[]⟩) asciiToLower
        (some ⟨Level.DebugLevel, ⟨[⟨Level.InfoLevel, "old", []⟩]⟩⟩)
        (some ⟨"warn", "json", false, false, ["stdout"], ["stderr"]⟩)).logger =
          some ⟨zapLevel, l⟩ ∧
      (New (fun _ _ => .ok ⟨[]⟩) asciiToLower
        (some ⟨Level.DebugLevel, ⟨[⟨Level.InfoLevel, "old", []⟩]⟩⟩)
        (some ⟨"warn", "json", false, false, ["stdout"], ["stderr"]⟩)).logger =
      (New (fun _ _ => .ok ⟨[]⟩) asciiToLower
        (some ⟨Level.DebugLevel, ⟨[⟨Level.InfoLevel, "old", []⟩]⟩⟩)
        (some ⟨"warn", "json", false, false, ["stdout"], ["stderr"]⟩)).ret ∧
      ∀ previous, (New (fun _ _ => .ok ⟨[]⟩) asciiToLower previous
        (some ⟨"warn", "json", false, false, ["stdout"], ["stderr"]⟩)).logger =
          some ⟨zapLevel, l⟩ :=
  ⟨by decide,
   New_success_replaces_singleton (fun _ _ => .ok ⟨[]⟩) asciiToLower
    (some ⟨Level.DebugLevel, ⟨[⟨Level.InfoLevel, "old", []⟩]⟩⟩)
    (some ⟨"warn", "json", false, false, ["stdout"], ["stderr"]⟩) (by decide)⟩

end log

/-! ## The level encoder and the encoding name -/

namespace log

open zapcore

/-- C9 as stated fails: with enable-color set, `New` accepts the options and
the level text of a Warn record is the upper-case "WARN" in yellow, which is
neither the lower-case name in colour codes nor a lower-case text. -/
theorem New_color_level_counterexample :
    (New (fun _ _ => .ok ⟨[]⟩) asciiToLower none
        (some ⟨"warn", "console", true, false, ["stdout"], ["stderr"]⟩)).err = none ∧
      (New.loggerConfig ⟨"warn", "console", true, false, ["stdout"], ["stderr"]⟩
        Level.WarnLevel).EncoderConfig.EncodeLevel.encode Level.WarnLevel =
        "\x1b[33mWARN\x1b[0m" ∧
      "\x1b[33mWARN\x1b[0m" ≠ colorAdd 33 "warn" ∧
      asciiToLower "\x1b[33mWARN\x1b[0m" ≠ "\x1b[33mWARN\x1b[0m" := by
  decide

/-- C9, amended: for every Options and every severity, the level encoder in
the configuration `New` hands to the engine renders the bare lower-case
severity name when enable-color is false, and the upper-case severity name
wrapped in the ANSI colour codes of the level when enable-color is true. -/
theorem New_level_encoder (opts : Options) (zapLevel lvl : Level) :
    (opts.EnableColor = false →
        (New.loggerConfig opts zapLevel).EncoderConfig.EncodeLevel.encode lvl = lvl.string ∧
          asciiToLower lvl.string = lvl.string) ∧
      (opts.EnableColor = true →
        (New.loggerConfig opts zapLevel).EncoderConfig.EncodeLevel.encode lvl =
            "\x1b[" ++ toString (levelToColor lvl) ++ "m" ++ lvl.CapitalString ++ "\x1b[0m" ∧
          asciiToLower lvl.CapitalString = lvl.string ∧
          lvl.CapitalString ≠ lvl.string) := by
  refine ⟨fun h => ⟨?_, ?_⟩, fun h => ⟨?_, ?_, ?_⟩⟩
  · simp [New.loggerConfig, New.encoderConfig, h, LevelEncoder.encode]
  · cases lvl <;> decide
  · simp [New.loggerConfig, New.encoderConfig, h, LevelEncoder.encode, colorAdd]
  · cases lvl <;> decide
  · cases lvl <;> decide

/-- C9, amended, at concrete inputs: "warn" without colour, yellow "WARN"
with colour. -/
theorem New_level_encoder_witness :
    (New.loggerConfig ⟨"warn", "console", false, false, ["stdout"], ["stderr"]⟩
        Level.WarnLevel).EncoderConfig.EncodeLevel.encode Level.WarnLevel = "warn" ∧
      (New.loggerConfig ⟨"warn", "console", true, false, ["stdout"], ["stderr"]⟩
        Level.WarnLevel).EncoderConfig.EncodeLevel.encode Level.WarnLevel =
        "\x1b[" ++ toString (levelToColor Level.WarnLevel) ++ "m" ++ "WARN" ++ "\x1b[0m" :=
  ⟨((New_level_encoder ⟨"warn", "console", false, false, ["stdout"], ["stderr"]⟩
      Level.WarnLevel Level.WarnLevel).1 rfl).1,
   ((New_level_encoder ⟨"warn", "console", true, false, ["stdout"], ["stderr"]⟩
      Level.WarnLevel Level.WarnLevel).2 rfl).1⟩

/-- C10 fails on the code at Format = "JSON": `Validate` returns no error, the
encoding `New` hands to the engine is "JSON" unchanged, which is not a
registered encoder name, and `New` over zap's `Build` returns the error
`no encoder registered for name "JSON"`, whatever the sinks are. -/
theorem Validate_New_disagree_on_format :
    Options.Validate asciiToLower ⟨"info", "JSON", false, false, ["stdout"], ["stderr"]⟩ = [] ∧
      (New.loggerConfig ⟨"info", "JSON", false, false, ["stdout"], ["stderr"]⟩
        Level.InfoLevel).Encoding = "JSON" ∧
      "JSON" ∉ zap.registeredEncoders ∧
      ∀ (openSinks : zap.Config → List zap.BuildOption → Except GoError zap.Logger)
        (logger : Option zapLogger),
        New (zap.Config.Build openSinks) asciiToLower logger
            (some ⟨"info", "JSON", false, false, ["stdout"], ["stderr"]⟩) =
          ⟨none, some (GoError.noEncoderRegistered "JSON"), logger⟩ := by
  refine ⟨by decide, rfl, by decide, fun openSinks logger => ?_⟩
  rfl

end log

/-! ## handleFields -/

namespace log

open zapcore

theorem loop_pair (l : zap.Logger) (s : String) (val : zap.Value) (rest : List zap.Value)
    (fields : List zap.Field) :
    handleFields.loop l (zap.Value.string s :: val :: rest) fields =
      handleFields.loop l rest (fields ++ [zap.Any s val]) := by
  simp [handleFields.loop, zap.Value.asField, zap.Value.asString]

/-- The loop passes over `n` leading pairs whose keys are strings, adding one
field per pair, in order. -/
theorem loop_pairs (n : Nat) : ∀ (args : List zap.Value), 2 * n ≤ args.length →
    (∀ i, i < n → ∃ s, args[2 * i]? = some (zap.Value.string s)) →
    ∃ fs : List zap.Field, fs.length = n ∧
      (∀ i, i < n → ∃ k v, args[2 * i]? = some (zap.Value.string k) ∧
        args[2 * i + 1]? = some v ∧ fs[i]? = some (zap.Any k v)) ∧
      ∀ l fields, handleFields.loop l args fields =
        handleFields.loop l (args.drop (2 * n)) (fields ++ fs) := by
  induction n with
  | zero =>
    intro args _ _
    exact ⟨[], rfl, fun i hi => absurd hi (Nat.not_lt_zero i), fun l fields => by simp⟩
  | succ n ih =>
    intro args hlen hkeys
    match args, hlen, hkeys with
    | [], hlen, _ => simp at hlen
    | [_], hlen, _ => simp at hlen; omega
    | a :: b :: t, hlen, hkeys =>
      obtain ⟨s, hs⟩ := hkeys 0 (by omega)
      simp only [Nat.mul_zero, List.getElem?_cons_zero, Option.some.injEq] at hs
      subst hs
      have hlen2 : 2 * n ≤ t.length := by
        simp only [List.length_cons] at hlen
        omega
      obtain ⟨fs, hfl, hfi, hfloop⟩ := ih t hlen2 (fun i hi => by
        obtain ⟨s2, hs2⟩ := hkeys (i + 1) (by omega)
        refine ⟨s2, ?_⟩
        have he : 2 * (i + 1) = 2 * i + 1 + 1 := by ring
        rw [he] at hs2
        simpa using hs2)
      refine ⟨zap.Any s b :: fs, by simp [hfl], ?_, ?_⟩
      · intro i hi
        cases i with
        | zero => exact ⟨s, b, by simp, by simp, by simp⟩
        | succ j =>
          obtain ⟨k, v, h1, h2, h3⟩ := hfi j (by omega)
          refine ⟨k, v, ?_, ?_, ?_⟩
          · have he : 2 * (j + 1) = 2 * j + 1 + 1 := by ring
            rw [he]
            simpa using h1
          · have he : 2 * (j + 1) + 1 = (2 * j + 1) + 1 + 1 := by ring
            rw [he]
            simpa using h2
          · simpa using h3
      · intro l fields
        have he : 2 * (n + 1) = 2 * n + 1 + 1 := by ring
        rw [he, loop_pair, hfloop]
        simp

/-- Key positions given by index: every even `i < 2 * n` is `2 * j`, `j < n`. -/
theorem keys_of_even_positions (args : List zap.Value) (n : Nat)
    (hkeys : ∀ i, i < 2 * n → i % 2 = 0 → ∃ s, args[i]? = some (zap.Value.string s)) :
    ∀ i, i < n → ∃ s, args[2 * i]? = some (zap.Value.string s) :=
  fun i hi => hkeys (2 * i) (by omega) (by omega)

end log

namespace log

open zapcore

theorem asString_eq_none (v : zap.Value) (h : ∀ s, v ≠ zap.Value.string s) :
    v.asString = none := by
  cases v <;> first | rfl | exact absurd rfl (h _)

/-- One step of the loop at a key that is not a string: one DPanic call that
carries the key, and no field added. -/
theorem loop_bad_key (l : zap.Logger) (bad : zap.Value) (rest : List zap.Value)
    (fields : List zap.Field) (hbad : bad.asString = none) :
    ∃ msg key, handleFields.loop l (bad :: rest) fields =
        (fields, ⟨l.entries ++ [⟨Level.DPanicLevel, msg, [zap.Any key bad]⟩]⟩) ∧
      (msg, key) ∈
        [("strongly-typed Zap Field passed to logr", "zap field"),
         ("odd number of arguments passed as key-value pairs for logging", "ignored key"),
         ("non-string key argument passed to logging, ignoring all later arguments",
          "invalid key")] := by
  cases hf : bad.asField with
  | some f =>
    exact ⟨"strongly-typed Zap Field passed to logr", "zap field",
      by cases rest <;> simp [handleFields.loop, hf, zap.Logger.DPanic], by simp⟩
  | none =>
    cases rest with
    | nil =>
      exact ⟨"odd number of arguments passed as key-value pairs for logging", "ignored key",
        by simp [handleFields.loop, hf, zap.Logger.DPanic], by simp⟩
    | cons val rest2 =>
      exact ⟨"non-string key argument passed to logging, ignoring all later arguments",
        "invalid key", by simp [handleFields.loop, hf, hbad, zap.Logger.DPanic], by simp⟩

/-- One step of the loop at a last, unpaired element: one DPanic call that
carries it, and no field added. -/
theorem loop_last (l : zap.Logger) (last : zap.Value) (fields : List zap.Field) :
    ∃ msg key, handleFields.loop l [last] fields =
        (fields, ⟨l.entries ++ [⟨Level.DPanicLevel, msg, [zap.Any key last]⟩]⟩) ∧
      (msg, key) ∈
        [("strongly-typed Zap Field passed to logr", "zap field"),
         ("odd number of arguments passed as key-value pairs for logging",
          "ignored key")] := by
  cases hf : last.asField with
  | some f =>
    exact ⟨"strongly-typed Zap Field passed to logr", "zap field",
      by simp [handleFields.loop, hf, zap.Logger.DPanic], by simp⟩
  | none =>
    exact ⟨"odd number of arguments passed as key-value pairs for logging", "ignored key",
      by simp [handleFields.loop, hf, zap.Logger.DPanic], by simp⟩

/-- C3: for an argument list of even length 2n whose elements at even
positions are all strings, `handleFields` returns exactly n fields, the i-th
built from the key at position 2i and the value at position 2i+1, followed by
the additional fields, and makes no diagnostic call on the logger. -/
theorem handleFields_well_formed (l : zap.Logger) (args : List zap.Value)
    (additional : List zap.Field) (n : Nat)
    (hlen : args.length = 2 * n)
    (hkeys : ∀ i, i < args.length → i % 2 = 0 →
      ∃ s, args[i]? = some (zap.Value.string s)) :
    ∃ fs : List zap.Field,
      handleFields l args additional = (fs ++ additional, l) ∧
      fs.length = n ∧
      ∀ i, i < n → ∃ k v, args[2 * i]? = some (zap.Value.string k) ∧
        args[2 * i + 1]? = some v ∧ fs[i]? = some (zap.Any k v) := by
  obtain ⟨fs, hfl, hfi, hloop⟩ := loop_pairs n args (by omega)
    (keys_of_even_positions args n (fun i hi he => hkeys i (by omega) he))
  refine ⟨fs, ?_, hfl, hfi⟩
  unfold handleFields
  by_cases h0 : args.length = 0
  · have hn : n = 0 := by omega
    subst hn
    have hnil : fs = [] := List.eq_nil_of_length_eq_zero hfl
    simp [h0, hnil]
  · rw [if_neg h0, hloop l [], List.drop_eq_nil_of_le (by omega)]
    simp [handleFields.loop]

/-- C3, the example of the specification: ("k1","v1","k2","v2") gives exactly
two fields and no diagnostic. -/
theorem handleFields_well_formed_witness :
    handleFields ⟨[]⟩
        [zap.Value.string "k1", zap.Value.string "v1", zap.Value.string "k2",
          zap.Value.string "v2"] [] =
      ([zap.Any "k1" (zap.Value.string "v1"), zap.Any "k2" (zap.Value.string "v2")], ⟨[]⟩) ∧
    ∃ fs : List zap.Field,
      handleFields ⟨[]⟩
        [zap.Value.string "k1", zap.Value.string "v1", zap.Value.string "k2",
          zap.Value.string "v2"] [] = (fs ++ [], ⟨[]⟩) ∧
      fs.length = 2 ∧
      ∀ i, i < 2 → ∃ k v,
        [zap.Value.string "k1", zap.Value.string "v1", zap.Value.string "k2",
          zap.Value.string "v2"][2 * i]? = some (zap.Value.string k) ∧
        [zap.Value.string "k1", zap.Value.string "v1", zap.Value.string "k2",
          zap.Value.string "v2"][2 * i + 1]? = some v ∧
        fs[i]? = some (zap.Any k v) :=
  ⟨by decide,
   handleFields_well_formed ⟨[]⟩
    [zap.Value.string "k1", zap.Value.string "v1", zap.Value.string "k2",
      zap.Value.string "v2"] [] 2 rfl
    (by
      intro i hi he
      simp only [List.length_cons, List.length_nil] at hi
      interval_cases i
      · exact ⟨"k1", rfl⟩
      · simp at he
      · exact ⟨"k2", rfl⟩
      · simp at he)⟩

end log

namespace log

open zapcore

/-- C4: when the keys at the even positions below the even position p are
strings and the element at position p is not a string, `handleFields` returns
exactly the p/2 fields of the pairs before p (followed by the additional
fields), so no field from position p or later, and makes exactly one
diagnostic call on the logger, which carries the element at p. -/
theorem handleFields_non_string_key (l : zap.Logger) (args : List zap.Value)
    (additional : List zap.Field) (p : Nat)
    (hp : p % 2 = 0) (hlt : p < args.length)
    (hkeys : ∀ i, i < p → i % 2 = 0 → ∃ s, args[i]? = some (zap.Value.string s))
    (hbad : ∀ s, args[p]? ≠ some (zap.Value.string s)) :
    ∃ (fs : List zap.Field) (bad : zap.Value) (msg key : String),
      args[p]? = some bad ∧
      handleFields l args additional =
        (fs ++ additional, ⟨l.entries ++ [⟨Level.DPanicLevel, msg, [zap.Any key bad]⟩]⟩) ∧
      fs.length = p / 2 ∧
      (∀ i, i < p / 2 → ∃ k v, args[2 * i]? = some (zap.Value.string k) ∧
        args[2 * i + 1]? = some v ∧ fs[i]? = some (zap.Any k v)) ∧
      (msg, key) ∈
        [("strongly-typed Zap Field passed to logr", "zap field"),
         ("odd number of arguments passed as key-value pairs for logging", "ignored key"),
         ("non-string key argument passed to logging, ignoring all later arguments",
          "invalid key")] := by
  have h2 : 2 * (p / 2) = p := by omega
  obtain ⟨fs, hfl, hfi, hloop⟩ := loop_pairs (p / 2) args (by omega)
    (keys_of_even_positions args (p / 2) (fun i hi he => hkeys i (by omega) he))
  have hget : args[p]? = some args[p] := List.getElem?_eq_getElem hlt
  have hstr : (args[p]).asString = none :=
    asString_eq_none _ (fun s hs => hbad s (by rw [hget, hs]))
  obtain ⟨msg, key, hstep, hmem⟩ :=
    loop_bad_key l args[p] (args.drop (p + 1)) ([] ++ fs) hstr
  refine ⟨fs, args[p], msg, key, hget, ?_, hfl, hfi, hmem⟩
  unfold handleFields
  have h0 : ¬ args.length = 0 := by omega
  rw [if_neg h0, hloop l [], h2, List.drop_eq_getElem_cons hlt, hstep]
  simp

/-- C4, the example of the specification: (42,"v1") gives zero fields and one
diagnostic. -/
theorem handleFields_non_string_key_witness :
    handleFields ⟨[]⟩ [zap.Value.int 42, zap.Value.string "v1"] [] =
      ([], ⟨[⟨Level.DPanicLevel,
        "non-string key argument passed to logging, ignoring all later arguments",
        [zap.Any "invalid key" (zap.Value.int 42)]⟩]⟩) ∧
    ∃ (fs : List zap.Field) (bad : zap.Value) (msg key : String),
      [zap.Value.int 42, zap.Value.string "v1"][0]? = some bad ∧
      handleFields ⟨[]⟩ [zap.Value.int 42, zap.Value.string "v1"] [] =
        (fs ++ [], ⟨[] ++ [⟨Level.DPanicLevel, msg, [zap.Any key bad]⟩]⟩) ∧
      fs.length = 0 / 2 ∧
      (∀ i, i < 0 / 2 → ∃ k v,
        [zap.Value.int 42, zap.Value.string "v1"][2 * i]? = some (zap.Value.string k) ∧
        [zap.Value.int 42, zap.Value.string "v1"][2 * i + 1]? = some v ∧
        fs[i]? = some (zap.Any k v)) ∧
      (msg, key) ∈
        [("strongly-typed Zap Field passed to logr", "zap field"),
         ("odd number of arguments passed as key-value pairs for logging", "ignored key"),
         ("non-string key argument passed to logging, ignoring all later arguments",
          "invalid key")] :=
  ⟨by decide,
   handleFields_non_string_key ⟨[]⟩ [zap.Value.int 42, zap.Value.string "v1"] [] 0
    rfl (by decide) (fun i hi _ => absurd hi (Nat.not_lt_zero i))
    (fun s hs => by simp at hs)⟩

/-- C5: for an argument list of odd length 2n+1 whose elements at the even
positions below 2n are strings, `handleFields` returns exactly the n fields of
the complete pairs (followed by the additional fields), drops the last
element, and makes exactly one diagnostic call on the logger, which carries
that last element. -/
theorem handleFields_odd_length (l : zap.Logger) (args : List zap.Value)
    (additional : List zap.Field) (n : Nat)
    (hlen : args.length = 2 * n + 1)
    (hkeys : ∀ i, i < 2 * n → i % 2 = 0 → ∃ s, args[i]? = some (zap.Value.string s)) :
    ∃ (fs : List zap.Field) (last : zap.Value) (msg key : String),
      args[2 * n]? = some last ∧
      handleFields l args additional =
        (fs ++ additional, ⟨l.entries ++ [⟨Level.DPanicLevel, msg, [zap.Any key last]⟩]⟩) ∧
      fs.length = n ∧
      (∀ i, i < n → ∃ k v, args[2 * i]? = some (zap.Value.string k) ∧
        args[2 * i + 1]? = some v ∧ fs[i]? = some (zap.Any k v)) ∧
      (msg, key) ∈
        [("strongly-typed Zap Field passed to logr", "zap field"),
         ("odd number of arguments passed as key-value pairs for logging",
          "ignored key")] := by
  obtain ⟨fs, hfl, hfi, hloop⟩ := loop_pairs n args (by omega)
    (keys_of_even_positions args n hkeys)
  have hlt : 2 * n < args.length := by omega
  have hget : args[2 * n]? = some args[2 * n] := List.getElem?_eq_getElem hlt
  obtain ⟨msg, key, hstep, hmem⟩ := loop_last l args[2 * n] ([] ++ fs)
  refine ⟨fs, args[2 * n], msg, key, hget, ?_, hfl, hfi, hmem⟩
  unfold handleFields
  have h0 : ¬ args.length = 0 := by omega
  rw [if_neg h0, hloop l [], List.drop_eq_getElem_cons hlt,
    List.drop_eq_nil_of_le (by omega), hstep]
  simp

/-- C5, the example of the specification: ("k1","v1","k2") gives the single
field ("k1","v1") and one diagnostic for "k2". -/
theorem handleFields_odd_length_witness :
    handleFields ⟨[]⟩
        [zap.Value.string "k1", zap.Value.string "v1", zap.Value.string "k2"] [] =
      ([zap.Any "k1" (zap.Value.string "v1")], ⟨[⟨Level.DPanicLevel,
        "odd number of arguments passed as key-value pairs for logging",
        [zap.Any "ignored key" (zap.Value.string "k2")]⟩]⟩) ∧
    ∃ (fs : List zap.Field) (last : zap.Value) (msg key : String),
      [zap.Value.string "k1", zap.Value.string "v1", zap.Value.string "k2"][2 * 1]? =
        some last ∧
      handleFields ⟨[]⟩
        [zap.Value.string "k1", zap.Value.string "v1", zap.Value.string "k2"] [] =
        (fs ++ [], ⟨[] ++ [⟨Level.DPanicLevel, msg, [zap.Any key last]⟩]⟩) ∧
      fs.length = 1 ∧
      (∀ i, i < 1 → ∃ k v,
        [zap.Value.string "k1", zap.Value.string "v1", zap.Value.string "k2"][2 * i]? =
          some (zap.Value.string k) ∧
        [zap.Value.string "k1", zap.Value.string "v1", zap.Value.string "k2"][2 * i + 1]? =
          some v ∧
        fs[i]? = some (zap.Any k v)) ∧
      (msg, key) ∈
        [("strongly-typed Zap Field passed to logr", "zap field"),
         ("odd number of arguments passed as key-value pairs for logging",
          "ignored key")] :=
  ⟨by decide,
   handleFields_odd_length ⟨[]⟩
    [zap.Value.string "k1", zap.Value.string "v1", zap.Value.string "k2"] [] 1 rfl
    (by
      intro i hi he
      interval_cases i
      · exact ⟨"k1", rfl⟩
      · simp at he)⟩

end log
